import Mathlib

/-!
A shallow embedding of `slutils.py`: the sympy → sparselizard expression
translator `lizardify` (its default rewrite-rule table, the `_get_name`
dispatch-tag function and the inner recursive function `doit`), the
`output` working-directory context manager, and the gmsh bulk result-file
loader `merge_in_gmsh`.

Modelling conventions:
* Python floats are modelled exactly as rationals (`Rat`); the claims under
  study never depend on rounding.
* sparselizard values (`sl.expression`, `sl.parameter`, numbers) are opaque
  to the translator, which only composes them through target constructors
  and operators; they are modelled by the free term algebra `SLValue`.
* Python exceptions are modelled with `Except`: `doit` either returns a
  value or an exception that propagates to the caller unmodified.
-/

set_option autoImplicit false

/-- Target-representation values. `num q` is a plain Python float, `field s`
an opaque value supplied through the substitution dictionary, `add`/`mul` the
Python `+`/`*` on target values, `pow` the `sl.pow` constructor, `recip x`
the Python expression `1 / x` (the target reciprocal idiom), `call f vs` a
call `sl.f(*vs)` of a named target function, and `matrix r c vs` the
constructor `sl.expression(r, c, vs)`. -/
inductive SLValue : Type where
  | num : Rat → SLValue
  | field : String → SLValue
  | add : SLValue → SLValue → SLValue
  | mul : SLValue → SLValue → SLValue
  | pow : SLValue → SLValue → SLValue
  | recip : SLValue → SLValue
  | call : String → List SLValue → SLValue
  | matrix : Nat → Nat → List SLValue → SLValue
  deriving Repr

/-- A rewrite rule: called as `rewrite_rules[ename](*map(doit, expr.args))`,
i.e. on the already-translated children, positionally, in argument order. -/
abbrev Rule : Type := List SLValue → SLValue

/-- The rewrite table is a Python dict keyed by tag strings; modelled as an
association list looked up front-to-back. -/
abbrev RewriteTable : Type := List (String × Rule)

/-- Dict lookup: `rewrite_rules[name]`, and `name in rewrite_rules` is
`(lookupRule tbl name).isSome`. -/
def lookupRule (tbl : RewriteTable) (name : String) : Option Rule :=
  List.lookup name tbl

/-- Target function `sl.log10`. -/
def sl.log10 : Rule := fun vs => SLValue.call "log10" vs

/-- Target function `sl.sin`. -/
def sl.sin : Rule := fun vs => SLValue.call "sin" vs

/-- Target function `sl.cos`. -/
def sl.cos : Rule := fun vs => SLValue.call "cos" vs

/-- Target function `sl.tan`. -/
def sl.tan : Rule := fun vs => SLValue.call "tan" vs

/-- Target function `sl.asin`. -/
def sl.asin : Rule := fun vs => SLValue.call "asin" vs

/-- Target function `sl.acos`. -/
def sl.acos : Rule := fun vs => SLValue.call "acos" vs

/-- Target function `sl.atan`. -/
def sl.atan : Rule := fun vs => SLValue.call "atan" vs

/-- Target function `sl.abs`. -/
def sl.abs : Rule := fun vs => SLValue.call "abs" vs

/-- Target function `sl.atan2`. -/
def sl.atan2 : Rule := fun vs => SLValue.call "atan2" vs

/-- Target binary power constructor `sl.pow`. -/
def sl.pow (x y : SLValue) : SLValue := SLValue.pow x y

/-- Target matrix-expression constructor `sl.expression(rows, cols, elems)`. -/
def sl.expression (rows cols : Nat) (elems : List SLValue) : SLValue :=
  SLValue.matrix rows cols elems

/-- The module-level default rewrite-rule table of `slutils.py`, in source
order. -/
def _lizardify_default_rewrite_rules : RewriteTable :=
  [("log", sl.log10),
   ("sin", sl.sin),
   ("cos", sl.cos),
   ("tan", sl.tan),
   ("asin", sl.asin),
   ("acos", sl.acos),
   ("atan", sl.atan),
   ("Abs", sl.abs),
   ("atan2", sl.atan2)]

/-- Sympy expression nodes, as far as `lizardify` inspects them.
`Matrix mty r c es` is a `sp.MatrixBase` instance: `mty` is its nominal class
name (`MutableDenseMatrix`, `ImmutableDenseMatrix`, …, which `_get_name`
ignores), `r`/`c` its `rows`/`cols`, and `es` the flat element list that
Python iteration over a sympy matrix yields, in row-major order.
`NegativeOne` is the sympy singleton class of the integer −1 (sympy interns
`Integer(-1)` to it, so `Integer` covers the other integers).  `Float` is a
sympy floating-point literal, carried exactly.  `Func f as` is an applied
named function (`sp.sin(x)`, user-defined functions); undefined applied
functions are not float-coercible, and `f` is assumed distinct from the five
structural tags.  `NonNumeric t as` is any other node kind with type name
`t`, one on which `float(expr)` raises `TypeError`. -/
inductive SymExpr : Type where
  | Add : List SymExpr → SymExpr
  | Mul : List SymExpr → SymExpr
  | Pow : List SymExpr → SymExpr
  | Matrix : String → Nat → Nat → List SymExpr → SymExpr
  | Symbol : String → SymExpr
  | NegativeOne : SymExpr
  | Integer : Int → SymExpr
  | Rational : Int → Int → SymExpr
  | Float : Rat → SymExpr
  | Func : String → List SymExpr → SymExpr
  | NonNumeric : String → List SymExpr → SymExpr
  deriving Repr

/-- `_get_name`: a matrix-like node dispatches on `"Matrix"` whatever its
nominal class; every other node dispatches on its type name
`o.func.__name__`. -/
def _get_name : SymExpr → String
  | .Add _ => "Add"
  | .Mul _ => "Mul"
  | .Pow _ => "Pow"
  | .Matrix _ _ _ _ => "Matrix"
  | .Symbol _ => "Symbol"
  | .NegativeOne => "NegativeOne"
  | .Integer _ => "Integer"
  | .Rational _ _ => "Rational"
  | .Float _ => "Float"
  | .Func f _ => f
  | .NonNumeric t _ => t

/-- Python exceptions `doit` can raise. `keyError s` is `subs[expr]` failing
on the Symbol named `s` (a `KeyError`, propagated to the caller as raised);
`typeError t` is the `TypeError` the fallback arm raises when `float(expr)`
fails, whose message interpolates the tag name `t` (the tag is carried here
as the error's payload); `arityError t` stands for the exception from
unpacking `e, p = expr.args` when the arity is not two, or from `reduce` over
an empty child list; `attributeError mty` is the `AttributeError` raised by
accessing `.args` on a mutable matrix object of class `mty`, which is not a
sympy `Basic` and has no `.args` attribute. -/
inductive SLErr : Type where
  | keyError : String → SLErr
  | typeError : String → SLErr
  | arityError : String → SLErr
  | attributeError : String → SLErr
  deriving DecidableEq, Repr

/-- The sympy matrix classes that are `Basic` (the immutable ones): only
these have `.args`, namely `(Integer(rows), Integer(cols), Tuple(*elements))`.
The mutable classes (`sp.Matrix` constructs a `MutableDenseMatrix`) are not
`Basic` and accessing `.args` on them raises `AttributeError`. -/
def isImmutableMatrixClass (mty : String) : Bool :=
  mty == "ImmutableDenseMatrix" || mty == "ImmutableSparseMatrix"

/-- `expr.args`, the ordered children the rule arm maps `doit` over.  Leaf
nodes (symbols, numeric literals) have `args = ()` in sympy.  A mutable
matrix has no `.args` at all — the access raises `AttributeError` naming its
class — and an immutable matrix's `.args` is
`(Integer(rows), Integer(cols), Tuple(*elements))`, not the flat element
list (the `Tuple` node's own `.args` are the row-major elements). -/
def SymExpr.args : SymExpr → Except SLErr (List SymExpr)
  | .Add as => .ok as
  | .Mul as => .ok as
  | .Pow as => .ok as
  | .Matrix mty r c es =>
    if isImmutableMatrixClass mty then
      .ok [.Integer (r : Int), .Integer (c : Int), .NonNumeric "Tuple" es]
    else .error (.attributeError mty)
  | .Symbol _ => .ok []
  | .NegativeOne => .ok []
  | .Integer _ => .ok []
  | .Rational _ _ => .ok []
  | .Float _ => .ok []
  | .Func _ as => .ok as
  | .NonNumeric _ as => .ok as

/-- `isinstance(p, sp.core.numbers.NegativeOne)`: true exactly for the
`NegativeOne` class, never for other nodes that merely equal −1
numerically. -/
def isNegativeOne : SymExpr → Bool
  | .NegativeOne => true
  | _ => false

/-- `functools.reduce` with no initializer: raises on an empty iterable, else
folds left-to-right starting from the first element. -/
def reduce1 (f : SLValue → SLValue → SLValue) (tag : String) :
    List SLValue → Except SLErr SLValue
  | [] => .error (.arityError tag)
  | v :: vs => .ok (vs.foldl f v)

/-- `doit` on an `Integer(n)` node, factored out of the recursion (an Integer
node has no children): the table check on "Integer" comes first, else the
fallback `float(n)`.  The matrix rule arm reuses it to translate the
`Integer(rows)`/`Integer(cols)` members of an immutable matrix's `.args`. -/
def doitInteger (tbl : RewriteTable) (n : Int) : Except SLErr SLValue :=
  match lookupRule tbl "Integer" with
  | some rule => Except.map rule (Except.ok [])
  | none => .ok (.num (n : Rat))

/-- `doit`'s dispatch for a node with type name `t` that is neither a
structural tag nor float-coercible, given the translation of its children:
a table rule keyed `t` is applied to them, else the fallback `float(expr)`
raises the `TypeError` carrying `t`.  Factored out of the recursion so the
matrix rule arm can translate the `Tuple` member of an immutable matrix's
`.args` (whose children are the row-major elements) without non-structural
recursion. -/
def doitNonNumeric (tbl : RewriteTable) (t : String)
    (children : Except SLErr (List SLValue)) : Except SLErr SLValue :=
  match lookupRule tbl t with
  | some rule => Except.map rule children
  | none => .error (.typeError t)

mutual

/-- The inner recursive function `doit` of `lizardify`, dispatching on
`_get_name expr`: rewrite-table lookup comes first, then the structural tags
Add, Mul, Pow, Matrix, Symbol, then the float fallback.  Each constructor arm
below begins with the table check on that constructor's dispatch tag, exactly
as the source's `if ename in rewrite_rules` applies to every node. -/
def doit (tbl : RewriteTable) (subs : List (String × SLValue)) :
    SymExpr → Except SLErr SLValue
  | .Add as =>
    match lookupRule tbl "Add" with
    | some rule => Except.map rule (doitList tbl subs as)
    | none => Except.bind (doitList tbl subs as) (reduce1 SLValue.add "Add")
  | .Mul as =>
    match lookupRule tbl "Mul" with
    | some rule => Except.map rule (doitList tbl subs as)
    | none => Except.bind (doitList tbl subs as) (reduce1 SLValue.mul "Mul")
  | .Pow [e, p] =>
    match lookupRule tbl "Pow" with
    | some rule => Except.map rule (doitList tbl subs [e, p])
    | none =>
      if isNegativeOne p then
        Except.map SLValue.recip (doit tbl subs e)
      else
        Except.bind (doit tbl subs e) fun x =>
          Except.map (fun y => sl.pow x y) (doit tbl subs p)
  | .Pow as =>
    match lookupRule tbl "Pow" with
    | some rule => Except.map rule (doitList tbl subs as)
    | none => .error (.arityError "Pow")
  | .Matrix mty r c es =>
    match lookupRule tbl "Matrix" with
    | some rule =>
      -- rewrite_rules["Matrix"](*map(doit, expr.args)): a mutable matrix
      -- (what sp.Matrix builds) is not Basic and has no .args, so the
      -- attribute access raises before anything is translated; an immutable
      -- matrix has .args = (Integer(rows), Integer(cols), Tuple(*elements)),
      -- so the rule is invoked only after doit of those three arguments.
      if isImmutableMatrixClass mty then
        Except.bind (doitInteger tbl (r : Int)) fun vr =>
          Except.bind (doitInteger tbl (c : Int)) fun vc =>
            Except.bind (doitNonNumeric tbl "Tuple" (doitList tbl subs es))
              fun vt => Except.ok (rule [vr, vc, vt])
      else .error (.attributeError mty)
    | none => Except.map (sl.expression r c) (doitList tbl subs es)
  | .Symbol s =>
    match lookupRule tbl "Symbol" with
    | some rule => Except.map rule (Except.ok [])
    | none =>
      match List.lookup s subs with
      | some v => .ok v
      | none => .error (.keyError s)
  | .NegativeOne =>
    match lookupRule tbl "NegativeOne" with
    | some rule => Except.map rule (Except.ok [])
    | none => .ok (.num (-1))
  | .Integer n => doitInteger tbl n
  | .Rational p q =>
    match lookupRule tbl "Rational" with
    | some rule => Except.map rule (Except.ok [])
    | none => .ok (.num ((p : Rat) / (q : Rat)))
  | .Float v =>
    match lookupRule tbl "Float" with
    | some rule => Except.map rule (Except.ok [])
    | none => .ok (.num v)
  | .Func f as => doitNonNumeric tbl f (doitList tbl subs as)
  | .NonNumeric t as => doitNonNumeric tbl t (doitList tbl subs as)

/-- `map(doit, ...)` as the translator consumes it: children are translated
left to right and the first exception aborts and propagates. -/
def doitList (tbl : RewriteTable) (subs : List (String × SLValue)) :
    List SymExpr → Except SLErr (List SLValue)
  | [] => .ok []
  | e :: es =>
    Except.bind (doit tbl subs e) fun v =>
      Except.map (fun vs => v :: vs) (doitList tbl subs es)

end

/-- `{**_lizardify_default_rewrite_rules, **rewrite_overrides}`: a merged
dict in which overrides shadow defaults on key collisions.  As an association
list for `lookupRule`, the overrides are placed in front. -/
def mergeRules (defaults overrides : RewriteTable) : RewriteTable :=
  overrides ++ defaults

/-- `lizardify(subs, expr_in, rewrite_overrides)`: build the merged rewrite
table, then run `doit` on the root expression. -/
def lizardify (subs : List (String × SLValue)) (expr_in : SymExpr)
    (rewrite_overrides : RewriteTable := []) : Except SLErr SLValue :=
  doit (mergeRules _lizardify_default_rewrite_rules rewrite_overrides)
    subs expr_in

/-- The process-wide OS state `merge_in_gmsh` touches: the current working
directory and the set of existing directories (as a list). -/
structure OSState : Type where
  cwd : String
  dirs : List String
  deriving DecidableEq, Repr

/-- `output.__enter__`: `os.mkdir(new_workdir)` with `FileExistsError` passed
over (a pre-existing directory is success), then `os.chdir(new_workdir)`. -/
def outputEnter (folder : String) (s : OSState) : OSState :=
  { cwd := folder,
    dirs := if folder ∈ s.dirs then s.dirs else s.dirs ++ [folder] }

/-- The statement `with output(folder): body`.  `output.__init__` records
`os.getcwd()` as `old_workdir`; `__enter__` creates and enters `folder`; the
body runs (its result `α` may embed a raised exception); `__exit__` runs
`os.chdir(old_workdir)` on every exit path, normal or raising. -/
def withOutput {α : Type} (folder : String)
    (body : OSState → OSState × α) (s : OSState) : OSState × α :=
  let old_workdir := s.cwd
  let (s2, r) := body (outputEnter folder s)
  ({ s2 with cwd := old_workdir }, r)

/-- Observable calls into the gmsh API: `gmsh.view.remove(t)` and
`gmsh.merge(f)`. -/
inductive GmshEvent : Type where
  | removeView : Nat → GmshEvent
  | merge : String → GmshEvent
  deriving DecidableEq, Repr

/-- The `for f in files: gmsh.merge(f)` loop: one merge call per file in list
order; a raising call ends the loop and the exception propagates, later files
are not attempted.  Returns the calls made and the outcome. -/
def loadAll (mergeF : String → Except String Unit) :
    List String → List GmshEvent × Except String Unit
  | [] => ([], .ok ())
  | f :: fs =>
    match mergeF f with
    | .ok _ =>
      let (evs, r) := loadAll mergeF fs
      (GmshEvent.merge f :: evs, r)
    | .error e => ([GmshEvent.merge f], .error e)

/-- Lexicographic order on character lists by code point, the string order
Python compares with. -/
def lexLe : List Char → List Char → Bool
  | [], _ => true
  | _ :: _, [] => false
  | a :: as, b :: bs => if a < b then true else if b < a then false else lexLe as bs

/-- Insert a string into a sorted list of strings, keeping lexicographic
order. -/
def insertSorted (f : String) : List String → List String
  | [] => [f]
  | g :: gs => if lexLe f.data g.data then f :: g :: gs else g :: insertSorted f gs

/-- Python `files.sort()`: sort lexicographically ascending. -/
def sortStrings : List String → List String
  | [] => []
  | f :: fs => insertSorted f (sortStrings fs)

/-- The default filter of `merge_in_gmsh`: keep the filenames whose last four
characters are `".pos"` (Python `f[-4:] == ".pos"`, which for the four-character
pattern is exactly an extension check). -/
def default_pos_filter (fs : List String) : List String :=
  fs.filter (fun f => f.takeRight 4 == ".pos")

/-- `merge_in_gmsh(directory, filter)`: remove every currently loaded gmsh
view, then inside `with output(directory)` take the directory listing, apply
the filter (the default when `filter=None` keeps `.pos` files), sort the
selection, and `gmsh.merge` each file in order.  `viewTags` is what
`gmsh.view.getTags()` returns, `listing` what `os.listdir()` returns inside
`directory`, and `mergeF` the outcome of each `gmsh.merge` call.  The result
is the final OS state, the gmsh calls in order, and the body's outcome. -/
def merge_in_gmsh (viewTags : List Nat) (listing : List String)
    (mergeF : String → Except String Unit) (directory : String)
    (filter : Option (List String → List String)) (s : OSState) :
    OSState × List GmshEvent × Except String Unit :=
  let filt := match filter with
    | none => default_pos_filter
    | some f => f
  let removes := viewTags.map GmshEvent.removeView
  let (s2, body_out) := withOutput directory (fun s1 =>
    (s1, loadAll mergeF (sortStrings (filt listing)))) s
  (s2, removes ++ body_out.1, body_out.2)

/-- Association-list analogue of Python dict merge lookup: searching the
concatenation finds the front (override) entry first and falls back to the
back (default) part. -/
theorem lookupRule_append (o d : RewriteTable) (k : String) :
    lookupRule (o ++ d) k =
      match lookupRule o k with
      | some r => some r
      | none => lookupRule d k := by
  induction o with
  | nil => rfl
  | cons a o ih =>
    obtain ⟨k0, r0⟩ := a
    simp only [lookupRule, List.cons_append, List.lookup] at *
    cases h : (k == k0)
    · simpa [h] using ih
    · simp [h]

/-- C1 (amended): rewrite-table lookup by tag takes priority over the
built-in structural handling unconditionally: whenever the merged table has a
rule under the expression's dispatch tag — including the structural tags Add,
Mul, Pow, Matrix and Symbol — the structural handling is not reached, and the
rule arm `rewrite_rules[ename](*map(doit, expr.args))` runs instead.  For
Add, Mul, Pow and Symbol that invokes the rule on the translated children
(for Symbol, on the empty argument list); for a matrix node the rule arm
fails before the rule is invoked unless the matrix is immutable and a
"Tuple" rule is also registered, because a mutable matrix has no `.args`
(AttributeError) and an immutable matrix's `.args` is
`(Integer(rows), Integer(cols), Tuple(*elements))`, whose `Tuple` member is
itself untranslatable by the fallback. -/
theorem ruleTable_lookup_takes_priority (tbl : RewriteTable)
    (subs : List (String × SLValue)) (e : SymExpr) (rule : Rule)
    (h : lookupRule tbl (_get_name e) = some rule) :
    doit tbl subs e =
      Except.bind e.args fun as => Except.map rule (doitList tbl subs as) := by
  cases e with
  | Pow as =>
    simp only [_get_name] at h
    rcases as with _ | ⟨x, _ | ⟨y, _ | ⟨z, rest⟩⟩⟩ <;>
      simp only [doit, SymExpr.args, h, doitList, Except.bind]
  | Matrix mty r c es =>
    simp only [_get_name] at h
    simp only [doit, SymExpr.args, h]
    by_cases him : isImmutableMatrixClass mty
    · simp only [him, if_true]
      cases hInt : lookupRule tbl "Integer" <;>
        cases hTup : lookupRule tbl "Tuple" <;>
          cases hes : doitList tbl subs es <;>
            simp [doit, doitList, doitInteger, doitNonNumeric, hInt, hTup,
              hes, Except.bind, Except.map]
    · simp only [him, if_false, Bool.false_eq_true, Except.bind]
  | _ =>
    simp only [_get_name] at h
    simp only [doit, SymExpr.args, h, doitList, doitNonNumeric, doitInteger,
      Except.bind]

/-- Witness for `ruleTable_lookup_takes_priority`: an override keyed "Symbol"
intercepts a Symbol node (the empty substitution dictionary is never
consulted, no KeyError); an override keyed "Matrix" pre-empts the structural
matrix handling but fails before the rule runs — with AttributeError on a
mutable matrix, and with the Tuple TypeError on an immutable one when no
"Tuple" rule exists. -/
theorem ruleTable_lookup_takes_priority_witness :
    doit [("Symbol", fun _ => SLValue.num 7)] [] (SymExpr.Symbol "x") =
      Except.ok (SLValue.num 7) ∧
    doit [("Matrix", fun _ => SLValue.num 8)] []
        (SymExpr.Matrix "MutableDenseMatrix" 1 1 [SymExpr.Integer 3]) =
      Except.error (SLErr.attributeError "MutableDenseMatrix") ∧
    doit [("Matrix", fun _ => SLValue.num 8)] []
        (SymExpr.Matrix "ImmutableDenseMatrix" 1 1 [SymExpr.Integer 3]) =
      Except.error (SLErr.typeError "Tuple") := by
  have h1 := ruleTable_lookup_takes_priority
    [("Symbol", fun _ => SLValue.num 7)] [] (SymExpr.Symbol "x")
    (fun _ => SLValue.num 7) rfl
  have h2 := ruleTable_lookup_takes_priority
    [("Matrix", fun _ => SLValue.num 8)] []
    (SymExpr.Matrix "MutableDenseMatrix" 1 1 [SymExpr.Integer 3])
    (fun _ => SLValue.num 8) rfl
  have h3 := ruleTable_lookup_takes_priority
    [("Matrix", fun _ => SLValue.num 8)] []
    (SymExpr.Matrix "ImmutableDenseMatrix" 1 1 [SymExpr.Integer 3])
    (fun _ => SLValue.num 8) rfl
  exact ⟨by rw [h1]; exact rfl, by rw [h2]; exact rfl,
    by rw [h3]; exact rfl⟩

/-- C1 (counterexample): with a rewrite override keyed "Add", translating the
sum node `1 + 2` applies the override, and the built-in structural Add
handling is not applied: the result is the override's value, not the target
sum of the translated children. -/
theorem lizardify_add_override_shadows_structural :
    lizardify [] (SymExpr.Add [SymExpr.Integer 1, SymExpr.Integer 2])
        [("Add", fun _ => SLValue.num 42)] = Except.ok (SLValue.num 42) ∧
    lizardify [] (SymExpr.Add [SymExpr.Integer 1, SymExpr.Integer 2])
        [("Add", fun _ => SLValue.num 42)] ≠
      Except.ok (SLValue.add (SLValue.num 1) (SLValue.num 2)) := by
  refine ⟨rfl, fun h => ?_⟩
  have h2 : Except.ok (ε := SLErr) (SLValue.num 42) =
      Except.ok (SLValue.add (SLValue.num 1) (SLValue.num 2)) := h
  simp at h2

/-- C2: for a Pow node with exactly two children (with "Pow" not a key of the
rewrite table, as with the default table), an exponent that is literally the
sympy NegativeOne constant yields the reciprocal `1 / doit(base)` of the
translated base — and never the generic `sl.pow` constructor — while any
other exponent yields `sl.pow(doit(base), doit(exponent))`. -/
theorem pow_negativeOne_reciprocal (tbl : RewriteTable)
    (subs : List (String × SLValue)) (a p : SymExpr)
    (hPow : lookupRule tbl "Pow" = none) :
    (doit tbl subs (SymExpr.Pow [a, SymExpr.NegativeOne]) =
      Except.map SLValue.recip (doit tbl subs a)) ∧
    (∀ x y : SLValue,
      doit tbl subs (SymExpr.Pow [a, SymExpr.NegativeOne]) ≠
        Except.ok (SLValue.pow x y)) ∧
    (isNegativeOne p = false →
      doit tbl subs (SymExpr.Pow [a, p]) =
        Except.bind (doit tbl subs a) fun x =>
          Except.map (fun y => sl.pow x y) (doit tbl subs p)) := by
  have hrec : doit tbl subs (SymExpr.Pow [a, SymExpr.NegativeOne]) =
      Except.map SLValue.recip (doit tbl subs a) := by
    simp only [doit, hPow, isNegativeOne, if_true]
  refine ⟨hrec, ?_, ?_⟩
  · intro x y h
    rw [hrec] at h
    cases ha : doit tbl subs a <;> rw [ha] at h <;>
      simp [Except.map] at h
  · intro hp
    simp [doit, hPow, hp]

/-- Witness for `pow_negativeOne_reciprocal`, on the default table:
`2 ** (-1)` becomes the reciprocal of `2.0`, and `2 ** 3` becomes
`sl.pow(2.0, 3.0)`. -/
theorem pow_negativeOne_reciprocal_witness :
    doit _lizardify_default_rewrite_rules []
        (SymExpr.Pow [SymExpr.Integer 2, SymExpr.NegativeOne]) =
      Except.ok (SLValue.recip (SLValue.num 2)) ∧
    doit _lizardify_default_rewrite_rules []
        (SymExpr.Pow [SymExpr.Integer 2, SymExpr.Integer 3]) =
      Except.ok (sl.pow (SLValue.num 2) (SLValue.num 3)) := by
  have h := pow_negativeOne_reciprocal _lizardify_default_rewrite_rules []
    (SymExpr.Integer 2) (SymExpr.Integer 3) rfl
  exact ⟨by rw [h.1]; rfl, by rw [h.2.2 rfl]; rfl⟩

/-- C3 (counterexample): take a = 1 and b = 2, whose tags ("Integer") are not
keys of the merged rewrite table, and merge in an override keyed "Add".  Both
children translate individually (to 1.0 and 2.0), yet translating the sum
node returns the override's value, not the target-representation sum of the
individual translations, so the law as claimed fails. -/
theorem add_law_fails_under_add_override :
    (lookupRule (mergeRules _lizardify_default_rewrite_rules
        [("Add", fun _ => SLValue.num 99)]) "Integer").isNone = true ∧
    lizardify [] (SymExpr.Integer 1) [("Add", fun _ => SLValue.num 99)] =
      Except.ok (SLValue.num 1) ∧
    lizardify [] (SymExpr.Integer 2) [("Add", fun _ => SLValue.num 99)] =
      Except.ok (SLValue.num 2) ∧
    lizardify [] (SymExpr.Add [SymExpr.Integer 1, SymExpr.Integer 2])
        [("Add", fun _ => SLValue.num 99)] = Except.ok (SLValue.num 99) ∧
    lizardify [] (SymExpr.Add [SymExpr.Integer 1, SymExpr.Integer 2])
        [("Add", fun _ => SLValue.num 99)] ≠
      Except.ok (SLValue.add (SLValue.num 1) (SLValue.num 2)) := by
  refine ⟨rfl, rfl, rfl, rfl, fun h => ?_⟩
  have h2 : Except.ok (ε := SLErr) (SLValue.num 99) =
      Except.ok (SLValue.add (SLValue.num 1) (SLValue.num 2)) := h
  simp at h2

/-- C3 (amended): provided additionally that "Add" and "Mul" themselves are
not keys of the merged rewrite table (true of the default table), translating
a binary sum node is the target-representation sum of the individual
translations, and in general the children are translated and folded
left-to-right; analogously for multiplication with target `*`. -/
theorem add_mul_structural_fold (tbl : RewriteTable)
    (subs : List (String × SLValue)) (a b : SymExpr)
    (hAdd : lookupRule tbl "Add" = none) (hMul : lookupRule tbl "Mul" = none)
    (_ha : (lookupRule tbl (_get_name a)).isNone = true)
    (_hb : (lookupRule tbl (_get_name b)).isNone = true) :
    (doit tbl subs (SymExpr.Add [a, b]) =
      Except.bind (doit tbl subs a) fun x =>
        Except.map (fun y => SLValue.add x y) (doit tbl subs b)) ∧
    (doit tbl subs (SymExpr.Mul [a, b]) =
      Except.bind (doit tbl subs a) fun x =>
        Except.map (fun y => SLValue.mul x y) (doit tbl subs b)) ∧
    (∀ as, doit tbl subs (SymExpr.Add as) =
      Except.bind (doitList tbl subs as) (reduce1 SLValue.add "Add")) ∧
    (∀ as, doit tbl subs (SymExpr.Mul as) =
      Except.bind (doitList tbl subs as) (reduce1 SLValue.mul "Mul")) := by
  refine ⟨?_, ?_, ?_, ?_⟩
  · simp only [doit, hAdd, doitList]
    cases hx : doit tbl subs a <;> cases hy : doit tbl subs b <;>
      simp [Except.bind, Except.map, reduce1]
  · simp only [doit, hMul, doitList]
    cases hx : doit tbl subs a <;> cases hy : doit tbl subs b <;>
      simp [Except.bind, Except.map, reduce1]
  · intro as; simp only [doit, hAdd]
  · intro as; simp only [doit, hMul]

/-- Witness for `add_mul_structural_fold`, on the default table with
`subs = {x: field "xf"}`: `x + 2` translates to the target sum, `x * 2` to
the target product. -/
theorem add_mul_structural_fold_witness :
    doit _lizardify_default_rewrite_rules [("x", SLValue.field "xf")]
        (SymExpr.Add [SymExpr.Symbol "x", SymExpr.Integer 2]) =
      Except.ok (SLValue.add (SLValue.field "xf") (SLValue.num 2)) ∧
    doit _lizardify_default_rewrite_rules [("x", SLValue.field "xf")]
        (SymExpr.Mul [SymExpr.Symbol "x", SymExpr.Integer 2]) =
      Except.ok (SLValue.mul (SLValue.field "xf") (SLValue.num 2)) := by
  have h := add_mul_structural_fold _lizardify_default_rewrite_rules
    [("x", SLValue.field "xf")] (SymExpr.Symbol "x") (SymExpr.Integer 2)
    rfl rfl rfl rfl
  exact ⟨by rw [h.1]; exact rfl, by rw [h.2.1]; exact rfl⟩

/-- C4: translating a Symbol node is exactly the substitution-dictionary
lookup: an entry's value is returned as-is, and a missing entry raises the
lookup error (KeyError) naming the symbol, which `lizardify` propagates to
the caller unmodified.  The hypothesis — no rewrite rule keyed "Symbol", as
with the default table — keeps the Symbol arm reachable. -/
theorem symbol_substitution_lookup (subs : List (String × SLValue))
    (o : RewriteTable) (s : String)
    (hS : (lookupRule (mergeRules _lizardify_default_rewrite_rules o)
        "Symbol").isNone = true) :
    (∀ v, List.lookup s subs = some v →
      lizardify subs (SymExpr.Symbol s) o = Except.ok v) ∧
    (List.lookup s subs = none →
      lizardify subs (SymExpr.Symbol s) o = Except.error (SLErr.keyError s)) := by
  have hS2 : lookupRule (mergeRules _lizardify_default_rewrite_rules o)
      "Symbol" = none := Option.isNone_iff_eq_none.mp hS
  constructor
  · intro v hv
    simp only [lizardify, doit, hS2, hv]
  · intro hv
    simp only [lizardify, doit, hS2, hv]

/-- Witness for `symbol_substitution_lookup`, with no overrides and
`subs = {x: field "xf"}`: `x` translates to its entry and the absent `y`
raises `KeyError("y")`. -/
theorem symbol_substitution_lookup_witness :
    lizardify [("x", SLValue.field "xf")] (SymExpr.Symbol "x") [] =
      Except.ok (SLValue.field "xf") ∧
    lizardify [("x", SLValue.field "xf")] (SymExpr.Symbol "y") [] =
      Except.error (SLErr.keyError "y") := by
  refine ⟨(symbol_substitution_lookup [("x", SLValue.field "xf")] [] "x"
      rfl).1 (SLValue.field "xf") rfl,
    (symbol_substitution_lookup [("x", SLValue.field "xf")] [] "y"
      rfl).2 rfl⟩

/-- C5: a named-function node whose tag is a key of the merged rewrite table
invokes exactly that table entry on the recursively translated children,
positionally, in argument order.  Merging gives an override precedence on its
own keys only: every key the overrides do not mention still maps to its
default entry, and the default table is exactly log→log10, sin, cos, tan,
asin, acos, atan, Abs, atan2. -/
theorem func_rule_invocation_and_merge (subs : List (String × SLValue))
    (o : RewriteTable) (f : String) (as : List SymExpr) (rule : Rule)
    (h : lookupRule (mergeRules _lizardify_default_rewrite_rules o) f =
      some rule) :
    lizardify subs (SymExpr.Func f as) o =
      Except.map rule
        (doitList (mergeRules _lizardify_default_rewrite_rules o) subs as) ∧
    (∀ k r, lookupRule o k = some r →
      lookupRule (mergeRules _lizardify_default_rewrite_rules o) k = some r) ∧
    (∀ k, lookupRule o k = none →
      lookupRule (mergeRules _lizardify_default_rewrite_rules o) k =
        lookupRule _lizardify_default_rewrite_rules k) ∧
    lookupRule _lizardify_default_rewrite_rules "log" = some sl.log10 ∧
    lookupRule _lizardify_default_rewrite_rules "sin" = some sl.sin ∧
    lookupRule _lizardify_default_rewrite_rules "cos" = some sl.cos ∧
    lookupRule _lizardify_default_rewrite_rules "tan" = some sl.tan ∧
    lookupRule _lizardify_default_rewrite_rules "asin" = some sl.asin ∧
    lookupRule _lizardify_default_rewrite_rules "acos" = some sl.acos ∧
    lookupRule _lizardify_default_rewrite_rules "atan" = some sl.atan ∧
    lookupRule _lizardify_default_rewrite_rules "Abs" = some sl.abs ∧
    lookupRule _lizardify_default_rewrite_rules "atan2" = some sl.atan2 := by
  refine ⟨?_, ?_, ?_, rfl, rfl, rfl, rfl, rfl, rfl, rfl, rfl, rfl⟩
  · simp only [lizardify, doit, doitNonNumeric, h]
  · intro k r hk
    have := lookupRule_append o _lizardify_default_rewrite_rules k
    rw [hk] at this
    exact this
  · intro k hk
    have := lookupRule_append o _lizardify_default_rewrite_rules k
    rw [hk] at this
    exact this

/-- Witness for `func_rule_invocation_and_merge`: overriding "atan2" replaces
only that entry — the overridden rule is invoked on the translated arguments
in order, while the untouched "sin" still maps to its default. -/
theorem func_rule_invocation_and_merge_witness :
    lizardify [] (SymExpr.Func "atan2" [SymExpr.Integer 1, SymExpr.Integer 2])
        [("atan2", fun vs => SLValue.call "my_atan2" vs)] =
      Except.ok (SLValue.call "my_atan2" [SLValue.num 1, SLValue.num 2]) ∧
    lookupRule (mergeRules _lizardify_default_rewrite_rules
        [("atan2", fun vs => SLValue.call "my_atan2" vs)]) "sin" =
      some sl.sin := by
  have h := func_rule_invocation_and_merge []
    [("atan2", fun vs => SLValue.call "my_atan2" vs)] "atan2"
    [SymExpr.Integer 1, SymExpr.Integer 2]
    (fun vs => SLValue.call "my_atan2" vs) rfl
  refine ⟨by rw [h.1]; exact rfl, ?_⟩
  rw [h.2.2.1 "sin" rfl]
  exact rfl

/-- C6: a matrix node dispatches on the tag "Matrix" whatever its nominal
symbolic class, and (with "Matrix" not a key of the table, as with the
default table) translates to `sl.expression(rows, cols, elems)` where the
flat element sequence is the element-wise translation of the row-major
elements: the empty list maps to the empty list and a head element is
translated and placed before the translated tail. -/
theorem matrix_dispatch_row_major (tbl : RewriteTable)
    (subs : List (String × SLValue)) (mty : String) (r c : Nat)
    (es : List SymExpr) (hM : lookupRule tbl "Matrix" = none) :
    _get_name (SymExpr.Matrix mty r c es) = "Matrix" ∧
    doit tbl subs (SymExpr.Matrix mty r c es) =
      Except.map (sl.expression r c) (doitList tbl subs es) ∧
    (∀ vs, doitList tbl subs es = Except.ok vs →
      doit tbl subs (SymExpr.Matrix mty r c es) =
        Except.ok (SLValue.matrix r c vs)) ∧
    (∀ e es2, doitList tbl subs (e :: es2) =
      Except.bind (doit tbl subs e) fun v =>
        Except.map (fun vs => v :: vs) (doitList tbl subs es2)) ∧
    doitList tbl subs [] = Except.ok [] := by
  have hm : doit tbl subs (SymExpr.Matrix mty r c es) =
      Except.map (sl.expression r c) (doitList tbl subs es) := by
    simp only [doit, hM]
  refine ⟨rfl, hm, ?_, fun e es2 => rfl, rfl⟩
  intro vs hvs
  rw [hm, hvs]
  exact rfl

/-- Witness for `matrix_dispatch_row_major`: a 2×2 matrix named by its
mutable sympy class translates to the target matrix expression over the
row-major element-wise translations. -/
theorem matrix_dispatch_row_major_witness :
    doit _lizardify_default_rewrite_rules [("x", SLValue.field "xf")]
        (SymExpr.Matrix "MutableDenseMatrix" 2 2
          [SymExpr.Integer 1, SymExpr.Symbol "x",
           SymExpr.Rational 1 2, SymExpr.Integer 4]) =
      Except.ok (SLValue.matrix 2 2
        [SLValue.num 1, SLValue.field "xf", SLValue.num (1/2),
         SLValue.num 4]) := by
  have h := matrix_dispatch_row_major _lizardify_default_rewrite_rules
    [("x", SLValue.field "xf")] "MutableDenseMatrix" 2 2
    [SymExpr.Integer 1, SymExpr.Symbol "x",
     SymExpr.Rational 1 2, SymExpr.Integer 4] rfl
  exact h.2.2.1 _ rfl

/-- C7: a node that reaches the fallback arm — its tag is none of the
structural tags and not a table key — is coerced with `float(expr)`: integer,
rational, float and NegativeOne nodes give their numeric value (2 gives 2.0,
1/2 gives 0.5), and a non-coercible node raises the unsupported-node
TypeError carrying its tag name. -/
theorem fallback_float_or_type_error (tbl : RewriteTable)
    (subs : List (String × SLValue)) (n p q : Int) (v : Rat) (t : String)
    (as : List SymExpr)
    (hI : lookupRule tbl "Integer" = none)
    (hR : lookupRule tbl "Rational" = none)
    (hF : lookupRule tbl "Float" = none)
    (hN : lookupRule tbl "NegativeOne" = none)
    (ht : lookupRule tbl t = none)
    (_hts : t ∉ ["Add", "Mul", "Pow", "Matrix", "Symbol"]) :
    doit tbl subs (SymExpr.Integer n) = Except.ok (SLValue.num (n : Rat)) ∧
    doit tbl subs (SymExpr.Rational p q) =
      Except.ok (SLValue.num ((p : Rat) / (q : Rat))) ∧
    doit tbl subs (SymExpr.Float v) = Except.ok (SLValue.num v) ∧
    doit tbl subs SymExpr.NegativeOne = Except.ok (SLValue.num (-1)) ∧
    doit tbl subs (SymExpr.NonNumeric t as) =
      Except.error (SLErr.typeError t) := by
  refine ⟨?_, ?_, ?_, ?_, ?_⟩ <;>
    simp only [doit, doitInteger, doitNonNumeric, hI, hR, hF, hN, ht]

/-- Witness for `fallback_float_or_type_error`, on the default table: the
integer 2 gives 2.0, the rational 1/2 gives 0.5, and a Heaviside application
raises the unsupported-node error carrying "Heaviside". -/
theorem fallback_float_or_type_error_witness :
    doit _lizardify_default_rewrite_rules [] (SymExpr.Integer 2) =
      Except.ok (SLValue.num 2) ∧
    doit _lizardify_default_rewrite_rules [] (SymExpr.Rational 1 2) =
      Except.ok (SLValue.num (1/2)) ∧
    doit _lizardify_default_rewrite_rules []
        (SymExpr.NonNumeric "Heaviside" [SymExpr.Symbol "x"]) =
      Except.error (SLErr.typeError "Heaviside") := by
  have h := fallback_float_or_type_error _lizardify_default_rewrite_rules []
    2 1 2 0 "Heaviside" [SymExpr.Symbol "x"] rfl rfl rfl rfl rfl (by decide)
  exact ⟨h.1, h.2.1, h.2.2.2.2⟩

/-- C8: for a directory whose listing is {a.pos, b.pos, c.txt} in any order,
the loader with the default filter (and merges that succeed) makes exactly
the gmsh calls: first one remove per pre-existing view, then merge "a.pos",
then merge "b.pos" — so exactly the two .pos files are loaded, in sorted
order, after all views are cleared.  Moreover on such a listing applying the
default filter before sorting (as the code does) equals applying it to the
sorted listing (as specified): the default filter keeps exactly the files
with the fixed ".pos" extension either way. -/
theorem merge_in_gmsh_default_loads_sorted_pos (views : List Nat)
    (listing : List String) (dir : String) (s : OSState)
    (h : listing = ["a.pos", "b.pos", "c.txt"] ∨
         listing = ["a.pos", "c.txt", "b.pos"] ∨
         listing = ["b.pos", "a.pos", "c.txt"] ∨
         listing = ["b.pos", "c.txt", "a.pos"] ∨
         listing = ["c.txt", "a.pos", "b.pos"] ∨
         listing = ["c.txt", "b.pos", "a.pos"]) :
    (merge_in_gmsh views listing (fun _ => Except.ok ()) dir none s).2.1 =
      views.map GmshEvent.removeView ++
        [GmshEvent.merge "a.pos", GmshEvent.merge "b.pos"] ∧
    sortStrings (default_pos_filter listing) =
      default_pos_filter (sortStrings listing) := by
  rcases h with h | h | h | h | h | h <;> subst h <;> exact ⟨rfl, rfl⟩

/-- Witness for `merge_in_gmsh_default_loads_sorted_pos` at a concrete
unsorted listing, two pre-existing views and a concrete start state. -/
theorem merge_in_gmsh_default_loads_sorted_pos_witness :
    (merge_in_gmsh [3, 5] ["c.txt", "b.pos", "a.pos"] (fun _ => Except.ok ())
        "results" none { cwd := "/home", dirs := [] }).2.1 =
      [GmshEvent.removeView 3, GmshEvent.removeView 5,
       GmshEvent.merge "a.pos", GmshEvent.merge "b.pos"] := by
  have h := merge_in_gmsh_default_loads_sorted_pos [3, 5]
    ["c.txt", "b.pos", "a.pos"] "results" { cwd := "/home", dirs := [] }
    (Or.inr (Or.inr (Or.inr (Or.inr (Or.inr rfl)))))
  rw [h.1]
  exact rfl

/-- C9: on every exit path of the loader — the merge outcome function is
arbitrary, so this includes a load raising at any point — the working
directory after the call equals the working directory before it; the target
directory exists afterwards, having been created exactly when absent, and a
pre-existing directory is kept as-is (creation is treated as success, not
error). -/
theorem merge_in_gmsh_restores_cwd (views : List Nat) (listing : List String)
    (mergeF : String → Except String Unit) (dir : String)
    (fopt : Option (List String → List String)) (s : OSState) :
    (merge_in_gmsh views listing mergeF dir fopt s).1.cwd = s.cwd ∧
    (merge_in_gmsh views listing mergeF dir fopt s).1.dirs =
      (if dir ∈ s.dirs then s.dirs else s.dirs ++ [dir]) ∧
    dir ∈ (merge_in_gmsh views listing mergeF dir fopt s).1.dirs := by
  refine ⟨rfl, rfl, ?_⟩
  show dir ∈ (if dir ∈ s.dirs then s.dirs else s.dirs ++ [dir])
  by_cases hd : dir ∈ s.dirs
  · simp [hd]
  · simp [hd]

/-- C10: the reciprocal rewrite keys on the symbolic NegativeOne class, not
on the numeric value: a floating-point exponent literal that is numerically
−1 is not a NegativeOne instance, so the Pow node takes the generic
`sl.pow` path (the exponent translating to the float −1.0) and never
produces the reciprocal. -/
theorem pow_float_neg_one_generic_power (tbl : RewriteTable)
    (subs : List (String × SLValue)) (a : SymExpr)
    (hPow : lookupRule tbl "Pow" = none)
    (hFloat : lookupRule tbl "Float" = none) :
    isNegativeOne (SymExpr.Float (-1)) = false ∧
    doit tbl subs (SymExpr.Float (-1)) = Except.ok (SLValue.num (-1)) ∧
    doit tbl subs (SymExpr.Pow [a, SymExpr.Float (-1)]) =
      Except.map (fun x => sl.pow x (SLValue.num (-1))) (doit tbl subs a) ∧
    (∀ x : SLValue,
      doit tbl subs (SymExpr.Pow [a, SymExpr.Float (-1)]) ≠
        Except.ok (SLValue.recip x)) := by
  have hfl : doit tbl subs (SymExpr.Float (-1)) =
      Except.ok (SLValue.num (-1)) := by
    simp only [doit, hFloat]
  have hgen : doit tbl subs (SymExpr.Pow [a, SymExpr.Float (-1)]) =
      Except.map (fun x => sl.pow x (SLValue.num (-1))) (doit tbl subs a) := by
    simp only [doit, hPow, isNegativeOne, hFloat]
    cases hx : doit tbl subs a <;> simp [Except.bind, Except.map]
  refine ⟨rfl, hfl, hgen, ?_⟩
  intro x h
  rw [hgen] at h
  cases hx : doit tbl subs a <;> rw [hx] at h <;>
    simp [Except.map, sl.pow] at h

/-- Witness for `pow_float_neg_one_generic_power`, on the default table:
`2 ** Float(-1.0)` becomes `sl.pow(2.0, -1.0)`, not a reciprocal. -/
theorem pow_float_neg_one_generic_power_witness :
    doit _lizardify_default_rewrite_rules []
        (SymExpr.Pow [SymExpr.Integer 2, SymExpr.Float (-1)]) =
      Except.ok (sl.pow (SLValue.num 2) (SLValue.num (-1))) ∧
    doit _lizardify_default_rewrite_rules []
        (SymExpr.Pow [SymExpr.Integer 2, SymExpr.Float (-1)]) ≠
      Except.ok (SLValue.recip (SLValue.num 2)) := by
  have h := pow_float_neg_one_generic_power _lizardify_default_rewrite_rules
    [] (SymExpr.Integer 2) rfl rfl
  exact ⟨by rw [h.2.2.1]; exact rfl, h.2.2.2 (SLValue.num 2)⟩
